import Mathlib

/-!
A shallow embedding of the chatroom server in `src/main.py`: the in-process
state engine (credential store, session manager, presence tracker, message
log) and its HTTP-level handlers, with theorems checking the repository's
specification against this embedding.

Modelling conventions:
* Python `dict`s (insertion ordered, unique keys) become association lists
  `List (String × α)`; assignment replaces in place or appends, `pop`/`del`
  erase the key.
* Wall-clock time (`datetime.now()`) becomes an explicit `now : Nat`
  parameter measured in seconds; `timedelta(hours=24)` is `86400`.
* `os.urandom`-based token generation is nondeterministic, so the generated
  token is an explicit oracle parameter of `handle_login`.
* Python string methods (`strip`, `lower`, `isalnum`, slicing) are modelled
  by explicit functions over `String.data`, on their ASCII behaviour, which
  is what every theorem below exercises.
-/

/-- Python `str.strip()`: drop leading and trailing whitespace. -/
def pyStrip (s : String) : String :=
  ⟨((s.data.dropWhile Char.isWhitespace).reverse.dropWhile
      Char.isWhitespace).reverse⟩

/-- Python `str.lower()` on one ASCII character. -/
def pyLowerChar (c : Char) : Char :=
  if 65 ≤ c.toNat ∧ c.toNat ≤ 90 then Char.ofNat (c.toNat + 32) else c

/-- Python `str.lower()`. -/
def pyLower (s : String) : String := ⟨s.data.map pyLowerChar⟩

/-- Python `s[:n]` on a string: the first `n` code points. -/
def pySlice (n : Nat) (s : String) : String := ⟨s.data.take n⟩

/-- Python `len(s)`: the number of code points. -/
def pyLen (s : String) : Nat := s.data.length

/-- Python `str.isalnum()`: non-empty and all characters alphanumeric. -/
def pyIsAlnum (cs : List Char) : Bool :=
  !cs.isEmpty && cs.all Char.isAlphanum

/-- Modelled from the spec: `hashlib.sha256(...).hexdigest()` is an external
library primitive, not repository code. It is modelled as an ideal hash —
a deterministic, collision-free (injective) function of its input string.
Only determinism and injectivity of the digest are used by the theorems. -/
def sha256hex (s : String) : String := "sha256:" ++ s

/-- `DataPersistence.hash_password` (src/main.py:34-38): SHA-256 of the
password concatenated with the fixed global salt string. -/
def hash_password (password : String) : String :=
  sha256hex (password ++ "chatroom_salt_2024")

/-- One record of `users_db`: `{"password_hash", "created", "last_seen"}`. -/
structure Account where
  password_hash : String
  created : Nat
  last_seen : Nat
deriving DecidableEq, Repr

/-- One record of `user_sessions`: `{"username", "expires", "last_activity"}`. -/
structure Session where
  username : String
  expires : Nat
  last_activity : Nat
deriving DecidableEq, Repr

/-- One record of `online_users`: `{"username", "last_ping"}`. -/
structure Presence where
  username : String
  last_ping : Nat
deriving DecidableEq, Repr

/-- One entry of `chatroom_messages` (built in `handle_chat_send`). -/
structure Message where
  id : Nat
  username : String
  text : String
  timestamp : Nat
  ip : String
  replyTo : Option Int
deriving DecidableEq, Repr

/-- The global mutable state of the server (src/main.py:17-23). -/
structure ServerState where
  users_db : List (String × Account)
  user_sessions : List (String × Session)
  online_users : List (String × Presence)
  typing_users : List (String × Nat)
  chatroom_messages : List Message
deriving DecidableEq, Repr

/-- The empty startup state. -/
def emptyState : ServerState := ⟨[], [], [], [], []⟩

/-- Python `d.get(k)` on an insertion-ordered dict with unique keys. -/
def dictGet (l : List (String × α)) (k : String) : Option α :=
  List.lookup k l

/-- Python `d[k] = v`: replace in place when the key exists, append otherwise. -/
def dictSet (l : List (String × α)) (k : String) (v : α) : List (String × α) :=
  if (List.lookup k l).isSome then
    l.map (fun p => if p.1 = k then (k, v) else p)
  else
    l ++ [(k, v)]

/-- Python `d.pop(k, None)` / `del d[k]`: erase the key. On the duplicate-free
lists a Python dict can denote, this agrees with removing the single entry. -/
def dictPop (l : List (String × α)) (k : String) : List (String × α) :=
  l.filter (fun p => p.1 ≠ k)

/-- `username.replace('_', '').isalnum()` from `handle_register`. -/
def usernameCharsOk (u : String) : Bool :=
  pyIsAlnum (u.data.filter (fun c => c ≠ '_'))

/-- Result of `handle_register`: the JSON `{"success": ..., "error"/"message"}`. -/
inductive RegisterResult where
  | ok
  | err (error : String)
deriving DecidableEq, Repr

/-- `ChatroomHandler.handle_register` (src/main.py:1785-1829): validation in
source order, then the case-insensitive duplicate check, then insertion. -/
def handle_register (username0 password : String) (now : Nat)
    (st : ServerState) : RegisterResult × ServerState :=
  let username := pyStrip username0
  if username = "" ∨ password = "" then
    (.err "Username and password are required", st)
  else if pyLen username < 3 ∨ pyLen username > 20 then
    (.err "Username must be 3-20 characters", st)
  else if ¬ usernameCharsOk username then
    (.err "Username can only contain letters, numbers, and underscores", st)
  else if pyLen password < 4 then
    (.err "Password must be at least 4 characters", st)
  else if (st.users_db.map (fun p => pyLower p.1)).contains (pyLower username) then
    (.err "Username already taken", st)
  else
    (.ok,
      { st with users_db :=
          dictSet st.users_db username ⟨hash_password password, now, now⟩ })

/-- Result of `handle_login`. -/
inductive LoginResult where
  | ok (session_id : String) (username : String)
  | err (error : String)
deriving DecidableEq, Repr

/-- Whether a `LoginResult` is the success response. -/
def LoginResult.isOk : LoginResult → Bool
  | .ok _ _ => true
  | .err _ => false

/-- `ChatroomHandler.handle_login` (src/main.py:1831-1875). The freshly
generated session id (`DataPersistence.generate_session_id`, os.urandom) is
the oracle parameter `token`; the session is stored unconditionally. -/
def handle_login (username0 password token : String) (now : Nat)
    (st : ServerState) : LoginResult × ServerState :=
  let username := pyStrip username0
  if username = "" ∨ password = "" then
    (.err "Username and password are required", st)
  else
    match dictGet st.users_db username with
    | none => (.err "Invalid username or password", st)
    | some user_data =>
      if hash_password password ≠ user_data.password_hash then
        (.err "Invalid username or password", st)
      else
        let st1 :=
          { st with users_db :=
              dictSet st.users_db username { user_data with last_seen := now } }
        let st2 :=
          { st1 with user_sessions :=
              dictSet st1.user_sessions token ⟨username, now + 86400, now⟩ }
        (.ok token username, st2)

/-- `ChatroomHandler.is_valid_session` (src/main.py:1738-1749). Note that an
expired session is deleted lazily here, as in the source. -/
def is_valid_session (session_id : String) (now : Nat)
    (st : ServerState) : Bool × ServerState :=
  match dictGet st.user_sessions session_id with
  | none => (false, st)
  | some session =>
    if now > session.expires then
      (false, { st with user_sessions := dictPop st.user_sessions session_id })
    else
      (true, st)

/-- `ChatroomHandler.get_username_from_session` (src/main.py:1751-1755). -/
def get_username_from_session (session_id : String)
    (st : ServerState) : Option String :=
  (dictGet st.user_sessions session_id).map (fun s => s.username)

/-- Result of `handle_logout`: the source always sends the success JSON. -/
inductive LogoutResult where
  | ok
deriving DecidableEq, Repr

/-- `ChatroomHandler.handle_logout` (src/main.py:1877-1885). -/
def handle_logout (cookie : Option String)
    (st : ServerState) : LogoutResult × ServerState :=
  match cookie with
  | none => (.ok, st)
  | some session_id =>
    (.ok, { st with
      user_sessions := dictPop st.user_sessions session_id,
      online_users := dictPop st.online_users session_id })

example :
    (handle_register "alice" "pw1234" 0 emptyState).1 = .ok := by decide

example :
    (handle_login "alice" "pw1234" "tok" 0
      (handle_register "alice" "pw1234" 0 emptyState).2).1 =
      .ok "tok" "alice" := by decide

/-- Stable insertion into a sorted list: the new element goes after existing
elements it does not strictly precede. -/
def insertSorted (le : α → α → Bool) (x : α) : List α → List α
  | [] => [x]
  | y :: ys => if le y x then y :: insertSorted le x ys else x :: y :: ys

/-- A stable sort modelling Python `list.sort(key=...)` (Timsort is stable). -/
def stableSort (le : α → α → Bool) (l : List α) : List α :=
  l.foldl (fun acc x => insertSorted le x acc) []

/-- `for i, msg in enumerate(chatroom_messages): msg['id'] = i + 1`
(src/main.py:1938-1939), starting the enumeration at `i`. -/
def renumberFrom (i : Nat) : List Message → List Message
  | [] => []
  | m :: rest => { m with id := i + 1 } :: renumberFrom (i + 1) rest

/-- The renumbering loop of `handle_chat_send`, from index 0. -/
def renumber (msgs : List Message) : List Message := renumberFrom 0 msgs

/-- The critical section of `handle_chat_send` (src/main.py:1923-1939):
assign `max(ids, default 0) + 1`, append, and when the retained count
exceeds 100 pop the oldest entry and renumber contiguously from 1.
Returns the id the handler reports (`new_id`, computed before truncation)
together with the new log. -/
def appendMessage (username text : String) (now : Nat) (ip : String)
    (replyTo : Option Int) (msgs : List Message) : Nat × List Message :=
  let new_id := (msgs.map (fun m => m.id)).foldl max 0 + 1
  let message : Message :=
    ⟨new_id, username, pyStrip text, now, ip, replyTo⟩
  let msgs1 := msgs ++ [message]
  let msgs2 :=
    if msgs1.length > 100 then renumber (msgs1.drop 1) else msgs1
  (new_id, msgs2)

/-- Result of `handle_chat_send`. -/
inductive SendResult where
  | ok (messageId : Nat)
  | err (error : String)
deriving DecidableEq, Repr

/-- `ChatroomHandler.handle_chat_send` (src/main.py:1899-1950): session
check, clamp to 500 code points, reject a body that is empty after
stripping, otherwise append under the log lock and clear the author's
typing flag. -/
def handle_chat_send (cookie : Option String) (rawText : String)
    (replyTo : Option Int) (ip : String) (now : Nat)
    (st : ServerState) : SendResult × ServerState :=
  match cookie with
  | none => (.err "Not authenticated", st)
  | some session_id =>
    let checked := is_valid_session session_id now st
    let st0 := checked.2
    if ¬ checked.1 then (.err "Not authenticated", st0)
    else
      match get_username_from_session session_id st0 with
      | none => (.err "Not authenticated", st0)
      | some username =>
        let text := pySlice 500 rawText
        if pyStrip text = "" then (.err "Empty message", st0)
        else
          let appended := appendMessage username text now ip replyTo
            st0.chatroom_messages
          let st1 := { st0 with chatroom_messages := appended.2 }
          let st2 := { st1 with typing_users := dictPop st1.typing_users username }
          (.ok appended.1, st2)

/-- Digit run of a Python `int()` literal: digits with single underscores
allowed between digits (`1_0` parses, `_1`, `1_`, `1__0` do not). -/
def pyIntDigits : List Char → Bool
  | [] => false
  | c :: rest => c.isDigit && pyIntDigitsRest rest
where
  pyIntDigitsRest : List Char → Bool
    | [] => true
    | '_' :: c :: rest => c.isDigit && pyIntDigitsRest rest
    | c :: rest => c.isDigit && pyIntDigitsRest rest

/-- Numeric value of such a digit run, ignoring underscores. -/
def pyDigitsVal (cs : List Char) : Nat :=
  (cs.filter (fun c => c ≠ '_')).foldl
    (fun a c => a * 10 + (c.toNat - 48)) 0

/-- Python `int(s)` on a string: surrounding whitespace allowed, optional
sign, then a decimal digit run; `none` models the `ValueError` raise. -/
def pyIntParse (s : String) : Option Int :=
  match (pyStrip s).data with
  | '+' :: rest => if pyIntDigits rest then some (pyDigitsVal rest) else none
  | '-' :: rest => if pyIntDigits rest then some (-(pyDigitsVal rest : Int)) else none
  | cs => if pyIntDigits cs then some (pyDigitsVal cs) else none

/-- Result of `handle_chat_messages`. `raised` models the uncaught
`ValueError` escaping from `int(...)`: the handler sends no JSON. -/
inductive PollResult where
  | ok (messages : List Message) (lastId : Nat) (messageCount : Nat)
  | err (error : String)
  | raised
deriving DecidableEq, Repr

/-- `ChatroomHandler.handle_chat_messages` (src/main.py:1952-1971): session
check, parse the `since` query parameter (default 0, uncaught raise on a
malformed value), then filter the log for ids strictly greater. -/
def handle_chat_messages (cookie : Option String) (sinceParam : Option String)
    (now : Nat) (st : ServerState) : PollResult × ServerState :=
  match cookie with
  | none => (.err "Not authenticated", st)
  | some session_id =>
    let checked := is_valid_session session_id now st
    let st0 := checked.2
    if ¬ checked.1 then (.err "Not authenticated", st0)
    else
      let parsed : Option Int :=
        match sinceParam with
        | none => some 0
        | some s => pyIntParse s
      match parsed with
      | none => (.raised, st0)
      | some since_id =>
        let msgs := st0.chatroom_messages
        let new_messages := msgs.filter (fun m => (m.id : Int) > since_id)
        let lastId := match msgs.getLast? with
          | some m => m.id
          | none => 0
        (.ok new_messages lastId msgs.length, st0)

/-- Result of the presence/typing read endpoints. -/
inductive UsersResult where
  | ok (users : List String)
  | err (error : String)
deriving DecidableEq, Repr

/-- `ChatroomHandler.handle_online_users` (src/main.py:1973-1994): session
check, refresh the caller's own presence entry, then list all online
usernames sorted case-insensitively. -/
def handle_online_users (cookie : Option String) (now : Nat)
    (st : ServerState) : UsersResult × ServerState :=
  match cookie with
  | none => (.err "Not authenticated", st)
  | some session_id =>
    let checked := is_valid_session session_id now st
    let st0 := checked.2
    if ¬ checked.1 then (.err "Not authenticated", st0)
    else
      let st1 :=
        match get_username_from_session session_id st0 with
        | some username =>
          { st0 with online_users :=
              dictSet st0.online_users session_id ⟨username, now⟩ }
        | none => st0
      let users := st1.online_users.map (fun p => p.2.username)
      (.ok (stableSort (fun a b => pyLower a ≤ pyLower b) users), st1)

/-- `ChatroomHandler.handle_typing_get` (src/main.py:2028-2055): session
check, lazily drop typing entries older than 5 seconds, then list typing
usernames other than the caller, sorted. -/
def handle_typing_get (cookie : Option String) (now : Nat)
    (st : ServerState) : UsersResult × ServerState :=
  match cookie with
  | none => (.err "Not authenticated", st)
  | some session_id =>
    let checked := is_valid_session session_id now st
    let st0 := checked.2
    if ¬ checked.1 then (.err "Not authenticated", st0)
    else
      let current := get_username_from_session session_id st0
      let st1 :=
        { st0 with typing_users :=
            st0.typing_users.filter (fun p => ¬ now - p.2 > 5) }
      let typing := (st1.typing_users.map (fun p => p.1)).filter
        (fun u => some u ≠ current)
      (.ok (stableSort (fun a b => a ≤ b) typing), st1)

/-- Result of `handle_typing_post` / `handle_heartbeat`. -/
inductive AckResult where
  | ok
  | err (error : String)
deriving DecidableEq, Repr

/-- `ChatroomHandler.handle_typing_post` (src/main.py:1996-2026). -/
def handle_typing_post (cookie : Option String) (isTyping : Bool) (now : Nat)
    (st : ServerState) : AckResult × ServerState :=
  match cookie with
  | none => (.err "Not authenticated", st)
  | some session_id =>
    let checked := is_valid_session session_id now st
    let st0 := checked.2
    if ¬ checked.1 then (.err "Not authenticated", st0)
    else
      match get_username_from_session session_id st0 with
      | none => (.err "Not authenticated", st0)
      | some username =>
        if isTyping then
          (.ok,
            { st0 with typing_users :=
                dictSet st0.typing_users username now })
        else
          (.ok,
            { st0 with typing_users :=
                dictPop st0.typing_users username })

/-- `ChatroomHandler.handle_heartbeat` (src/main.py:2057-2076): session
check, refresh the caller's presence entry and the session's last
activity, always acknowledge. -/
def handle_heartbeat (cookie : Option String) (now : Nat)
    (st : ServerState) : AckResult × ServerState :=
  match cookie with
  | none => (.err "Not authenticated", st)
  | some session_id =>
    let checked := is_valid_session session_id now st
    let st0 := checked.2
    if ¬ checked.1 then (.err "Not authenticated", st0)
    else
      match get_username_from_session session_id st0 with
      | none => (.ok, st0)
      | some username =>
        let st1 :=
          { st0 with online_users :=
              dictSet st0.online_users session_id ⟨username, now⟩ }
        let st2 :=
          match dictGet st1.user_sessions session_id with
          | some sess =>
            let sess1 := { sess with last_activity := now }
            { st1 with user_sessions :=
                dictSet st1.user_sessions session_id sess1 }
          | none => st1
        (.ok, st2)

/-- One pass of the background sweep `cleanup_inactive_users`
(src/main.py:196-219): drop presence entries idle for more than 120 seconds
and typing entries idle for more than 10 seconds. -/
def cleanup_sweep (now : Nat) (st : ServerState) : ServerState :=
  { st with
    online_users :=
      st.online_users.filter (fun p => ¬ now - p.2.last_ping > 120),
    typing_users :=
      st.typing_users.filter (fun p => ¬ now - p.2 > 10) }

/-- Per-post input of one append: everything `handle_chat_send` supplies to
the critical section apart from the assigned id. -/
structure PostInput where
  username : String
  text : String
  now : Nat
  ip : String
  replyTo : Option Int

/-- The message record the critical section stores for input `i` and id `id`. -/
def mkStoredMessage (id : Nat) (i : PostInput) : Message :=
  ⟨id, i.username, pyStrip i.text, i.now, i.ip, i.replyTo⟩

/-- One append through the critical section, keeping only the log. -/
def appendOne (i : PostInput) (msgs : List Message) : List Message :=
  (appendMessage i.username i.text i.now i.ip i.replyTo msgs).2

/-- The log after posting messages `inp 1, inp 2, ..., inp n` in order,
starting from the empty log. -/
def appendN (inp : Nat → PostInput) : Nat → List Message
  | 0 => []
  | n + 1 => appendOne (inp (n + 1)) (appendN inp n)

/-- One transition of the server: some handler runs to completion at a time
`t'` no earlier than the current time (each handler's body is a single
critical section in the source), the background sweep fires, or time merely
passes. Handler arguments (inputs, tokens, addresses) are arbitrary. -/
inductive Step : Nat × ServerState → Nat × ServerState → Prop where
  | tick {t t' : Nat} {s : ServerState} (h : t ≤ t') :
      Step (t, s) (t', s)
  | register {t t' : Nat} {s : ServerState} {u p : String} (h : t ≤ t') :
      Step (t, s) (t', (handle_register u p t' s).2)
  | login {t t' : Nat} {s : ServerState} {u p tok : String} (h : t ≤ t') :
      Step (t, s) (t', (handle_login u p tok t' s).2)
  | logout {t t' : Nat} {s : ServerState} {c : Option String} (h : t ≤ t') :
      Step (t, s) (t', (handle_logout c s).2)
  | chat_send {t t' : Nat} {s : ServerState} {c : Option String} {txt : String}
      {r : Option Int} {ip : String} (h : t ≤ t') :
      Step (t, s) (t', (handle_chat_send c txt r ip t' s).2)
  | chat_messages {t t' : Nat} {s : ServerState} {c q : Option String}
      (h : t ≤ t') :
      Step (t, s) (t', (handle_chat_messages c q t' s).2)
  | online_users {t t' : Nat} {s : ServerState} {c : Option String}
      (h : t ≤ t') :
      Step (t, s) (t', (handle_online_users c t' s).2)
  | typing_post {t t' : Nat} {s : ServerState} {c : Option String} {b : Bool}
      (h : t ≤ t') :
      Step (t, s) (t', (handle_typing_post c b t' s).2)
  | typing_get {t t' : Nat} {s : ServerState} {c : Option String}
      (h : t ≤ t') :
      Step (t, s) (t', (handle_typing_get c t' s).2)
  | heartbeat {t t' : Nat} {s : ServerState} {c : Option String}
      (h : t ≤ t') :
      Step (t, s) (t', (handle_heartbeat c t' s).2)
  | sweep {t t' : Nat} {s : ServerState} (h : t ≤ t') :
      Step (t, s) (t', cleanup_sweep t' s)

/-- A timed state the server can reach from empty startup. -/
def Reachable (p : Nat × ServerState) : Prop :=
  Relation.ReflTransGen Step (0, emptyState) p

/-- The presence invariant of the spec: every entry of `online_users` names
a session that is currently in the live session map and not expired. -/
def presenceOk (now : Nat) (st : ServerState) : Bool :=
  st.online_users.all (fun p =>
    match dictGet st.user_sessions p.1 with
    | some sess => decide (now ≤ sess.expires)
    | none => false)

example : pyIntParse "42" = some 42 := by decide
example : pyIntParse " -7 " = some (-7) := by decide
example : pyIntParse "abc" = none := by decide
example : pyIntParse "1_0" = some 10 := by decide
example : pyIntParse "1__0" = none := by decide
example : pyIntParse "" = none := by decide

theorem dictGet_cons {α : Type} (a : String) (b : α) (es : List (String × α))
    (k : String) :
    dictGet ((a, b) :: es) k = if k = a then some b else dictGet es k := by
  simp only [dictGet, List.lookup]
  by_cases h : k = a
  · simp [h]
  · have hb : (k == a) = false := by simp [h]
    rw [hb]
    simp [h]

theorem dictGet_dictPop_self {α : Type} (l : List (String × α)) (k : String) :
    dictGet (dictPop l k) k = none := by
  induction l with
  | nil => rfl
  | cons p l ih =>
    obtain ⟨a, b⟩ := p
    by_cases h : a = k
    · simpa [dictPop, List.filter_cons, h] using ih
    · have h' : k ≠ a := fun hk => h hk.symm
      simpa [dictPop, List.filter_cons, h, dictGet_cons, h'] using ih

theorem lookup_replace {α : Type} {l : List (String × α)} {k : String} (v : α) :
    List.lookup k (l.map (fun p => if p.1 = k then (k, v) else p)) =
      if (List.lookup k l).isSome then some v else none := by
  induction l with
  | nil => simp
  | cons p l ih =>
    obtain ⟨a, b⟩ := p
    by_cases hk : a = k
    · subst hk
      simp only [List.map_cons, if_pos rfl]
      have h1 := dictGet_cons a v (l.map (fun p => if p.1 = a then (a, v) else p)) a
      have h2 := dictGet_cons a b l a
      simp only [dictGet] at h1 h2
      simp [h1, h2]
    · have h' : k ≠ a := fun hkk => hk hkk.symm
      have h1 := dictGet_cons a b
        (l.map (fun p => if p.1 = k then (k, v) else p)) k
      have h2 := dictGet_cons a b l k
      simp only [dictGet] at h1 h2
      simp only [List.map_cons, if_neg hk, h1, if_neg h', h2, ih]

theorem lookup_append_fresh {α : Type} {l : List (String × α)} {k : String}
    (v : α) (h : List.lookup k l = none) :
    List.lookup k (l ++ [(k, v)]) = some v := by
  induction l with
  | nil => simp [List.lookup]
  | cons p l ih =>
    obtain ⟨a, b⟩ := p
    have h2 := dictGet_cons a b l k
    simp only [dictGet] at h2
    by_cases hk : k = a
    · rw [h2, if_pos hk] at h
      exact absurd h (by simp)
    · rw [h2, if_neg hk] at h
      have h3 := dictGet_cons a b (l ++ [(k, v)]) k
      simp only [dictGet] at h3
      rw [List.cons_append, h3, if_neg hk]
      exact ih h

theorem dictGet_dictSet_self {α : Type} (l : List (String × α)) (k : String)
    (v : α) :
    dictGet (dictSet l k v) k = some v := by
  unfold dictGet dictSet
  by_cases hs : (List.lookup k l).isSome
  · rw [if_pos hs, lookup_replace, if_pos hs]
  · rw [if_neg hs, lookup_append_fresh]
    cases hl : List.lookup k l with
    | none => rfl
    | some w => rw [hl] at hs; exact absurd (by simp) hs

theorem lookup_eq_none {α : Type} {l : List (String × α)} {k : String}
    (h : ∀ p ∈ l, p.1 ≠ k) : List.lookup k l = none := by
  induction l with
  | nil => rfl
  | cons p l ih =>
    obtain ⟨a, b⟩ := p
    have ha : a ≠ k := h (a, b) (by simp)
    have h2 := dictGet_cons a b l k
    simp only [dictGet] at h2
    rw [h2, if_neg (fun hk => ha hk.symm)]
    exact ih (fun q hq => h q (by simp [hq]))

/-- C9: `logout` is idempotent. Calling `handle_logout` twice with the same
session token is safe: the second call finds no session in the live map
(the token no longer resolves), still returns the success result, and the
state after the second call equals the state after the first. -/
theorem logout_idempotent (sid : String) (st : ServerState) :
    (handle_logout (some sid) (handle_logout (some sid) st).2).2 =
        (handle_logout (some sid) st).2
    ∧ (handle_logout (some sid) (handle_logout (some sid) st).2).1 =
        LogoutResult.ok
    ∧ dictGet ((handle_logout (some sid) st).2).user_sessions sid = none := by
  refine ⟨?_, rfl, ?_⟩
  · simp only [handle_logout, dictPop, List.filter_filter]
    congr 1 <;> simp
  · simpa [handle_logout] using dictGet_dictPop_self st.user_sessions sid

/-- The state after registering two distinct accounts, `alice` and `bob`,
with the identical password `hunter2`. -/
def twoAccountState : ServerState :=
  (handle_register "bob" "hunter2" 1
    (handle_register "alice" "hunter2" 0 emptyState).2).2

/-- C2: the code stores the same password hash for two distinct accounts
registered with the same password — `hash_password` salts with the fixed
global string `chatroom_salt_2024`, so the stored hash depends only on the
password, contradicting the spec's distinct-salt requirement. -/
theorem same_password_same_stored_hash :
    (dictGet twoAccountState.users_db "alice").map (fun a => a.password_hash) =
        (dictGet twoAccountState.users_db "bob").map (fun a => a.password_hash)
    ∧ (dictGet twoAccountState.users_db "alice").isSome = true
    ∧ (dictGet twoAccountState.users_db "bob").isSome = true := by
  decide

theorem login_ok_state (st : ServerState) (u p tok : String) (now : Nat)
    (acct : Account) (hu : pyStrip u = u) (hne : u ≠ "") (hp : p ≠ "")
    (hget : dictGet st.users_db u = some acct)
    (hhash : acct.password_hash = hash_password p) :
    handle_login u p tok now st =
      (.ok tok u,
        { st with
            users_db := dictSet st.users_db u { acct with last_seen := now },
            user_sessions :=
              dictSet st.user_sessions tok ⟨u, now + 86400, now⟩ }) := by
  simp only [handle_login, hu, hget]
  rw [if_neg (by simp [hne, hp]), if_neg (by simp [hhash])]

/-- A state holding one registered account `alice` and a live session whose
token is exactly `tok`, owned by another user `bob`. -/
def collideState : ServerState :=
  { (handle_register "alice" "pw1234" 0 emptyState).2 with
      user_sessions := [("tok", ⟨"bob", 90000, 100⟩)] }

/-- C5 counterexample: when login's freshly generated token collides with an
existing session token, `handle_login` does not regenerate — it silently
overwrites the existing session's entry. In `collideState` the token `tok`
belongs to `bob`'s session; after `alice` logs in and the generator
produces the same `tok`, the map holds only `alice`'s session under `tok`
and `bob`'s session is gone. -/
theorem login_token_collision_overwrites :
    collideState.user_sessions = [("tok", ⟨"bob", 90000, 100⟩)]
    ∧ (handle_login "alice" "pw1234" "tok" 5 collideState).1 =
        LoginResult.ok "tok" "alice"
    ∧ ((handle_login "alice" "pw1234" "tok" 5 collideState).2).user_sessions =
        [("tok", ⟨"alice", 86405, 5⟩)] := by
  decide

/-- C5 amended: on a successful login the implementation stores the freshly
generated token into the live session map unconditionally; whatever entry
existed under that token beforehand, the map afterwards binds the token to
the new session (silent overwrite, no regeneration). -/
theorem login_stores_token_unconditionally (st : ServerState)
    (u p tok : String) (now : Nat) (acct : Account)
    (hu : pyStrip u = u) (hne : u ≠ "") (hp : p ≠ "")
    (hget : dictGet st.users_db u = some acct)
    (hhash : acct.password_hash = hash_password p) :
    dictGet ((handle_login u p tok now st).2).user_sessions tok =
      some ⟨u, now + 86400, now⟩ := by
  rw [login_ok_state st u p tok now acct hu hne hp hget hhash]
  exact dictGet_dictSet_self _ _ _

/-- Witness for the amended C5 theorem at a concrete collision input. -/
theorem login_stores_token_unconditionally_witness :
    dictGet ((handle_login "alice" "pw1234" "tok" 5 collideState).2).user_sessions
        "tok" = some ⟨"alice", 86405, 5⟩ := by
  have h := login_stores_token_unconditionally collideState "alice" "pw1234"
    "tok" 5 ⟨hash_password "pw1234", 0, 0⟩ (by decide) (by decide) (by decide)
    (by decide) rfl
  simpa using h

/-- The state after registering the single account `Alice` (mixed case). -/
def mixedCaseState : ServerState :=
  (handle_register "Alice" "pw1234" 0 emptyState).2

/-- C3 counterexample: identifiers are NOT compared case-insensitively at
login. `Alice` registers successfully, but logging in as `alice` — the same
identifier up to letter case — with the correct password fails, because
`handle_login` looks the identifier up with an exact `dict.get`. -/
theorem login_case_sensitive_cex :
    (handle_register "Alice" "pw1234" 0 emptyState).1 = RegisterResult.ok
    ∧ pyLower "alice" = pyLower "Alice"
    ∧ (handle_login "alice" "pw1234" "tok" 1 mixedCaseState).1 =
        LoginResult.err "Invalid username or password" := by
  decide

/-- C3 amended: account identifiers compare case-insensitively only for the
uniqueness check at registration. `handle_login` looks the identifier up
case-sensitively: login succeeds with the exact identifier as registered
and the correct password, while an identifier that is not an exact key of
the store fails even when it matches a registered identifier up to case. -/
theorem login_exact_identifier (st : ServerState) (u p tok v : String)
    (now : Nat) (acct : Account)
    (hu : pyStrip u = u) (hne : u ≠ "") (hp : p ≠ "")
    (hget : dictGet st.users_db u = some acct)
    (hhash : acct.password_hash = hash_password p)
    (hv : dictGet st.users_db (pyStrip v) = none) :
    (handle_login u p tok now st).1 = LoginResult.ok tok u
    ∧ ((handle_login v p tok now st).1).isOk = false := by
  constructor
  · rw [login_ok_state st u p tok now acct hu hne hp hget hhash]
  · by_cases hc : pyStrip v = "" ∨ p = ""
    · simp [handle_login, hc, LoginResult.isOk]
    · simp [handle_login, hc, hv, LoginResult.isOk]

/-- Witness for the amended C3 theorem: `Alice` logs in with the exact
registered case; `alice` does not resolve to an account. -/
theorem login_exact_identifier_witness :
    (handle_login "Alice" "pw1234" "tok" 1 mixedCaseState).1 =
        LoginResult.ok "tok" "Alice"
    ∧ ((handle_login "alice" "pw1234" "tok" 1 mixedCaseState).1).isOk =
        false :=
  login_exact_identifier mixedCaseState "Alice" "pw1234" "tok" "alice" 1
    ⟨hash_password "pw1234", 0, 0⟩ (by decide) (by decide) (by decide)
    (by decide) rfl (by decide)

theorem string_eq_of_data {a b : String} (h : a.data = b.data) : a = b := by
  cases a
  cases b
  simp only at h
  rw [h]

/-- The idealized hash is injective, so unequal passwords hash unequally. -/
theorem hash_password_inj {a b : String}
    (h : hash_password a = hash_password b) : a = b := by
  unfold hash_password sha256hex at h
  have hd := congrArg String.data h
  rw [String.data_append, String.data_append, String.data_append,
    String.data_append] at hd
  have h1 := List.append_cancel_left hd
  have h2 := List.append_cancel_right h1
  exact string_eq_of_data h2

theorem register_ok_state (st : ServerState) (u p : String) (now : Nat)
    (hu : pyStrip u = u) (hl1 : 3 ≤ pyLen u) (hl2 : pyLen u ≤ 20)
    (hch : usernameCharsOk u = true) (hpl : 4 ≤ pyLen p)
    (hfresh : ∀ q ∈ st.users_db, pyLower q.1 ≠ pyLower u) :
    handle_register u p now st =
      (.ok,
        { st with users_db :=
            st.users_db ++ [(u, ⟨hash_password p, now, now⟩)] }) := by
  have hne : u ≠ "" := by
    intro he
    rw [he] at hl1
    exact absurd hl1 (by decide)
  have hpne : p ≠ "" := by
    intro he
    rw [he] at hpl
    exact absurd hpl (by decide)
  have hnomem : pyLower u ∉ st.users_db.map (fun q => pyLower q.1) := by
    intro hmem
    obtain ⟨q, hq, he⟩ := List.mem_map.mp hmem
    exact hfresh q hq he
  have hcont :
      (st.users_db.map (fun q => pyLower q.1)).contains (pyLower u) = false := by
    simp
    exact fun x y hxy => hfresh (x, y) hxy
  have hlookup : List.lookup u st.users_db = none :=
    lookup_eq_none (fun q hq he => hfresh q hq (by rw [he]))
  simp only [handle_register, hu]
  rw [if_neg (by simp [hne, hpne]), if_neg (by omega),
    if_neg (by simp [hch]), if_neg (by omega),
    if_neg (by simp; exact fun x y hxy => hfresh (x, y) hxy)]
  simp [dictSet, hlookup]

/-- C6: for a valid identifier/password pair registered once into a store
with no case-insensitive match for the identifier, (a) registration
succeeds, (b) a second registration under the identifier in any letter
case (here an arbitrary valid `u2` with the same lowercasing) fails with
the duplicate error, (c) login with that identifier and the correct
password succeeds, and (d) login with any incorrect password fails. -/
theorem register_auth_roundtrip (st : ServerState) (u p u2 p2 tok : String)
    (now now2 now3 : Nat)
    (hu : pyStrip u = u) (hl1 : 3 ≤ pyLen u) (hl2 : pyLen u ≤ 20)
    (hch : usernameCharsOk u = true) (hpl : 4 ≤ pyLen p)
    (hfresh : ∀ q ∈ st.users_db, pyLower q.1 ≠ pyLower u)
    (hu2 : pyStrip u2 = u2) (hl1b : 3 ≤ pyLen u2) (hl2b : pyLen u2 ≤ 20)
    (hch2 : usernameCharsOk u2 = true) (hpl2 : 4 ≤ pyLen p2)
    (hcase : pyLower u2 = pyLower u) :
    (handle_register u p now st).1 = RegisterResult.ok
    ∧ (handle_register u2 p2 now2 (handle_register u p now st).2).1 =
        RegisterResult.err "Username already taken"
    ∧ (handle_login u p tok now3 (handle_register u p now st).2).1 =
        LoginResult.ok tok u
    ∧ ∀ p', p' ≠ p →
        ((handle_login u p' tok now3 (handle_register u p now st).2).1).isOk
          = false := by
  have hreg := register_ok_state st u p now hu hl1 hl2 hch hpl hfresh
  have hpne2 : p2 ≠ "" := by
    intro he
    rw [he] at hpl2
    exact absurd hpl2 (by decide)
  have hne2 : u2 ≠ "" := by
    intro he
    rw [he] at hl1b
    exact absurd hl1b (by decide)
  have hlookup : List.lookup u st.users_db = none :=
    lookup_eq_none (fun q hq he => hfresh q hq (by rw [he]))
  have hst1 : (handle_register u p now st).2 =
      { st with users_db :=
          st.users_db ++ [(u, ⟨hash_password p, now, now⟩)] } := by
    rw [hreg]
  have hget : dictGet ((handle_register u p now st).2).users_db u =
      some ⟨hash_password p, now, now⟩ := by
    rw [hst1]
    exact lookup_append_fresh _ hlookup
  refine ⟨by rw [hreg], ?_, ?_, ?_⟩
  · rw [hst1]
    simp only [handle_register, hu2]
    rw [if_neg (by simp [hne2, hpne2]), if_neg (by omega),
      if_neg (by simp [hch2]), if_neg (by omega),
      if_pos (by simp; exact Or.inr hcase)]
  · rw [login_ok_state _ u p tok now3 ⟨hash_password p, now, now⟩ hu
      (by intro he; rw [he] at hl1; exact absurd hl1 (by decide))
      (by intro he; rw [he] at hpl; exact absurd hpl (by decide))
      hget rfl]
  · intro p' hp'
    by_cases hc : pyStrip u = "" ∨ p' = ""
    · simp [handle_login, hc, LoginResult.isOk]
    · have hhne : hash_password p' ≠ hash_password p := by
        intro he
        exact hp' (hash_password_inj he)
      simp only [handle_login, hu, hget, LoginResult.isOk]
      rw [if_neg (by rw [hu] at hc; exact hc)]
      simp [hhne, LoginResult.isOk]

/-- Witness for C6 at a concrete input: `alice`/`pw1234` registered into the
empty state; a second registration as `ALICE` is rejected as duplicate;
login with the right password succeeds and with a wrong one fails. -/
theorem register_auth_roundtrip_witness :
    (handle_register "alice" "pw1234" 0 emptyState).1 = RegisterResult.ok
    ∧ (handle_register "ALICE" "qwer" 1
        (handle_register "alice" "pw1234" 0 emptyState).2).1 =
        RegisterResult.err "Username already taken"
    ∧ (handle_login "alice" "pw1234" "tok" 2
        (handle_register "alice" "pw1234" 0 emptyState).2).1 =
        LoginResult.ok "tok" "alice"
    ∧ ((handle_login "alice" "wrong1" "tok" 2
        (handle_register "alice" "pw1234" 0 emptyState).2).1).isOk = false := by
  have h := register_auth_roundtrip emptyState "alice" "pw1234" "ALICE" "qwer"
    "tok" 0 1 2 (by decide) (by decide) (by decide) (by decide) (by decide)
    (by simp [emptyState]) (by decide) (by decide) (by decide) (by decide)
    (by decide) (by decide)
  exact ⟨h.1, h.2.1, h.2.2.1, h.2.2.2 "wrong1" (by decide)⟩

theorem is_valid_session_of_live (sid : String) (now : Nat)
    (st : ServerState) (sess : Session)
    (hsess : dictGet st.user_sessions sid = some sess)
    (hexp : ¬ now > sess.expires) :
    is_valid_session sid now st = (true, st) := by
  simp [is_valid_session, hsess, hexp]

theorem get_username_of_live (sid : String) (st : ServerState) (sess : Session)
    (hsess : dictGet st.user_sessions sid = some sess) :
    get_username_from_session sid st = some sess.username := by
  simp [get_username_from_session, hsess]

/-- C10: in an authenticated poll, when the `since` query parameter is
present, `handle_chat_messages` passes the raw string to `int(...)`: a
value that does not parse as a Python integer literal raises (no JSON is
returned), a parsing value filters with the parsed integer; when the
parameter is absent, it defaults to `0`. -/
theorem poll_since_param_parsing (st : ServerState) (sid s : String)
    (sess : Session) (now : Nat)
    (hsess : dictGet st.user_sessions sid = some sess)
    (hexp : ¬ now > sess.expires) :
    (handle_chat_messages (some sid) (some s) now st).1 =
      (match pyIntParse s with
       | none => PollResult.raised
       | some n =>
         PollResult.ok
           (st.chatroom_messages.filter (fun m => (m.id : Int) > n))
           (match st.chatroom_messages.getLast? with
            | some m => m.id
            | none => 0)
           st.chatroom_messages.length)
    ∧ (handle_chat_messages (some sid) none now st).1 =
      PollResult.ok
        (st.chatroom_messages.filter (fun m => (m.id : Int) > 0))
        (match st.chatroom_messages.getLast? with
         | some m => m.id
         | none => 0)
        st.chatroom_messages.length := by
  have hval := is_valid_session_of_live sid now st sess hsess hexp
  constructor
  · simp only [handle_chat_messages, hval]
    cases hp : pyIntParse s <;> simp [hp]
  · simp [handle_chat_messages, hval]

/-- A concrete authenticated state with two retained messages, for the
poll-endpoint witnesses. -/
def pollState : ServerState :=
  { emptyState with
      user_sessions := [("tok", ⟨"alice", 100, 0⟩)],
      chatroom_messages :=
        [⟨1, "alice", "hi", 1, "127.0.0.1", none⟩,
         ⟨2, "alice", "there", 2, "127.0.0.1", none⟩] }

/-- Witness for C10: `since=abc` raises; an absent parameter polls from 0. -/
theorem poll_since_param_parsing_witness :
    (handle_chat_messages (some "tok") (some "abc") 5 pollState).1 =
        PollResult.raised
    ∧ (handle_chat_messages (some "tok") none 5 pollState).1 =
        PollResult.ok pollState.chatroom_messages 2 2 := by
  have h := poll_since_param_parsing pollState "tok" "abc" ⟨"alice", 100, 0⟩ 5
    rfl (by decide)
  refine ⟨?_, ?_⟩
  · rw [h.1]
    decide
  · rw [h.2]
    decide

/-- C7: for every integer since-id (here the parse of the `since`
parameter), the authenticated poll returns exactly the retained messages
whose current id is strictly greater than it — characterized by membership
and by being a sublist of the log (log order) — together with the last
retained message's id (0 when the log is empty) and the total retained
count. -/
theorem poll_returns_exactly_newer (st : ServerState) (sid s : String)
    (sess : Session) (n : Int) (now : Nat)
    (hsess : dictGet st.user_sessions sid = some sess)
    (hexp : ¬ now > sess.expires)
    (hparse : pyIntParse s = some n) :
    (handle_chat_messages (some sid) (some s) now st).1 =
      PollResult.ok
        (st.chatroom_messages.filter (fun m => (m.id : Int) > n))
        (match st.chatroom_messages.getLast? with
         | some m => m.id
         | none => 0)
        st.chatroom_messages.length
    ∧ (∀ m, m ∈ st.chatroom_messages.filter (fun m => (m.id : Int) > n) ↔
        m ∈ st.chatroom_messages ∧ (m.id : Int) > n)
    ∧ (st.chatroom_messages.filter
        (fun m => (m.id : Int) > n)).Sublist st.chatroom_messages := by
  have hval := is_valid_session_of_live sid now st sess hsess hexp
  refine ⟨?_, ?_, List.filter_sublist _⟩
  · simp [handle_chat_messages, hval, hparse]
  · intro m
    simp [List.mem_filter]

/-- Witness for C7: polling `pollState` from since-id 1 returns exactly the
message with id 2, last id 2, count 2. -/
theorem poll_returns_exactly_newer_witness :
    (handle_chat_messages (some "tok") (some "1") 5 pollState).1 =
        PollResult.ok [⟨2, "alice", "there", 2, "127.0.0.1", none⟩] 2 2
    ∧ ((⟨2, "alice", "there", 2, "127.0.0.1", none⟩ : Message) ∈
        pollState.chatroom_messages.filter (fun m => (m.id : Int) > 1) ↔
        (⟨2, "alice", "there", 2, "127.0.0.1", none⟩ : Message) ∈
          pollState.chatroom_messages ∧ ((2 : Nat) : Int) > 1) := by
  have h := poll_returns_exactly_newer pollState "tok" "1" ⟨"alice", 100, 0⟩ 1 5
    rfl (by decide) (by decide)
  refine ⟨?_, ?_⟩
  · rw [h.1]
    decide
  · exact h.2.1 ⟨2, "alice", "there", 2, "127.0.0.1", none⟩

theorem renumberFrom_map_text (l : List Message) :
    ∀ i, (renumberFrom i l).map (fun m => m.text) = l.map (fun m => m.text) := by
  induction l with
  | nil => intro i; rfl
  | cons m l ih =>
    intro i
    simp only [renumberFrom, List.map_cons, ih]

theorem appendMessage_getLast_text (username text : String) (now : Nat)
    (ip : String) (replyTo : Option Int) (msgs : List Message) :
    ((appendMessage username text now ip replyTo msgs).2).getLast?.map
        (fun m => m.text) = some (pyStrip text) := by
  unfold appendMessage
  by_cases hlen : (msgs ++ [(⟨(msgs.map (fun m => m.id)).foldl max 0 + 1,
      username, pyStrip text, now, ip, replyTo⟩ : Message)]).length > 100
  · simp only [hlen, if_pos]
    cases msgs with
    | nil => simp at hlen
    | cons x rest =>
      rw [List.cons_append, List.drop_one, List.tail_cons]
      rw [show ((renumber (rest ++ [(⟨((x :: rest).map
          (fun m => m.id)).foldl max 0 + 1, username, pyStrip text, now, ip,
          replyTo⟩ : Message)])).getLast?.map (fun m => m.text)) =
        (((renumber (rest ++ [(⟨((x :: rest).map (fun m => m.id)).foldl max 0
          + 1, username, pyStrip text, now, ip, replyTo⟩ : Message)])).map
          (fun m => m.text)).getLast?) from (List.getLast?_map _ _).symm]
      rw [renumber, renumberFrom_map_text, List.map_append]
      simp
  · simp only [hlen, if_neg, ite_false]
    simp

/-- C8: an authenticated send clamps the body to its first 500 code points;
if the clamped body is empty after stripping whitespace the handler
answers the validation error `Empty message` and the log is unchanged,
otherwise the stripped clamped body is stored (it is the text of the last
retained message) via the critical section `appendMessage`. -/
theorem chat_send_clamp_trim (st : ServerState) (sid rawText ip : String)
    (replyTo : Option Int) (sess : Session) (now : Nat)
    (hsess : dictGet st.user_sessions sid = some sess)
    (hexp : ¬ now > sess.expires) :
    (handle_chat_send (some sid) rawText replyTo ip now st).1 =
      (if pyStrip (pySlice 500 rawText) = "" then SendResult.err "Empty message"
       else SendResult.ok
        ((st.chatroom_messages.map (fun m => m.id)).foldl max 0 + 1))
    ∧ ((handle_chat_send (some sid) rawText replyTo ip now st).2).chatroom_messages =
      (if pyStrip (pySlice 500 rawText) = "" then st.chatroom_messages
       else (appendMessage sess.username (pySlice 500 rawText) now ip replyTo
          st.chatroom_messages).2)
    ∧ (if pyStrip (pySlice 500 rawText) = "" then True
       else ((handle_chat_send (some sid) rawText replyTo ip now
          st).2).chatroom_messages.getLast?.map (fun m => m.text) =
          some (pyStrip (pySlice 500 rawText))) := by
  have hval := is_valid_session_of_live sid now st sess hsess hexp
  have huser := get_username_of_live sid st sess hsess
  by_cases he : pyStrip (pySlice 500 rawText) = ""
  · refine ⟨?_, ?_, ?_⟩ <;> simp [handle_chat_send, hval, huser, he, appendMessage]
  · refine ⟨?_, ?_, ?_⟩
    · simp [handle_chat_send, hval, huser, he, appendMessage]
    · simp [handle_chat_send, hval, huser, he]
    · rw [if_neg he]
      have hlog :
          ((handle_chat_send (some sid) rawText replyTo ip now
            st).2).chatroom_messages =
          (appendMessage sess.username (pySlice 500 rawText) now ip replyTo
            st.chatroom_messages).2 := by
        simp [handle_chat_send, hval, huser, he]
      rw [hlog, appendMessage_getLast_text]

/-- Witness for C8: a padded body is stored stripped; an all-whitespace body
is rejected with `Empty message` and leaves the log unchanged. -/
theorem chat_send_clamp_trim_witness :
    (handle_chat_send (some "tok") " hi there " none "127.0.0.1" 5
        pollState).1 = SendResult.ok 3
    ∧ ((handle_chat_send (some "tok") " hi there " none "127.0.0.1" 5
        pollState).2).chatroom_messages.getLast?.map (fun m => m.text) =
        some "hi there"
    ∧ (handle_chat_send (some "tok") "   " none "127.0.0.1" 5 pollState).1 =
        SendResult.err "Empty message"
    ∧ ((handle_chat_send (some "tok") "   " none "127.0.0.1" 5
        pollState).2).chatroom_messages = pollState.chatroom_messages := by
  have h1 := chat_send_clamp_trim pollState "tok" " hi there " "127.0.0.1"
    none ⟨"alice", 100, 0⟩ 5 rfl (by decide)
  have h2 := chat_send_clamp_trim pollState "tok" "   " "127.0.0.1"
    none ⟨"alice", 100, 0⟩ 5 rfl (by decide)
  refine ⟨by rw [h1.1]; decide, ?_, by rw [h2.1]; decide, by rw [h2.2.1]; decide⟩
  have h3 := h1.2.2
  rw [if_neg (by decide)] at h3
  rw [h3]
  decide

/-- The canonical shape of the log after `n ≤ cap` appends into an empty
log: messages `inp 1 .. inp n` carrying ids `1 .. n`. -/
def canonicalLog (inp : Nat → PostInput) (n : Nat) : List Message :=
  (List.range n).map (fun k => mkStoredMessage (k + 1) (inp (k + 1)))

theorem canonicalLog_map_id (inp : Nat → PostInput) (n : Nat) :
    (canonicalLog inp n).map (fun m => m.id) =
      (List.range n).map (fun k => k + 1) := by
  simp [canonicalLog, List.map_map, mkStoredMessage]

theorem foldl_max_range_succ : ∀ n : Nat,
    ((List.range n).map (fun k => k + 1)).foldl max 0 = n := by
  intro n
  induction n with
  | zero => rfl
  | succ n ih =>
    rw [List.range_succ, List.map_append, List.foldl_append, ih]
    simp [Nat.max_eq_right (Nat.le_succ n)]

theorem canonicalLog_succ (inp : Nat → PostInput) (n : Nat) :
    canonicalLog inp (n + 1) =
      canonicalLog inp n ++ [mkStoredMessage (n + 1) (inp (n + 1))] := by
  simp [canonicalLog, List.range_succ]

theorem appendMessage_no_trunc (username text : String) (now : Nat)
    (ip : String) (replyTo : Option Int) (msgs : List Message)
    (h : msgs.length + 1 ≤ 100) :
    (appendMessage username text now ip replyTo msgs).2 =
      msgs ++ [⟨(msgs.map (fun m => m.id)).foldl max 0 + 1, username,
        pyStrip text, now, ip, replyTo⟩] := by
  unfold appendMessage
  dsimp only
  rw [if_neg (by simp; omega)]

theorem appendOne_canonical (inp : Nat → PostInput) (n : Nat)
    (h : n + 1 ≤ 100) :
    appendOne (inp (n + 1)) (canonicalLog inp n) = canonicalLog inp (n + 1) := by
  rw [appendOne, appendMessage_no_trunc _ _ _ _ _ _
    (by simp [canonicalLog]; omega)]
  rw [canonicalLog_map_id, foldl_max_range_succ, canonicalLog_succ]
  rfl

theorem appendN_le_cap (inp : Nat → PostInput) :
    ∀ n, n ≤ 100 → appendN inp n = canonicalLog inp n := by
  intro n
  induction n with
  | zero => intro _; rfl
  | succ n ih =>
    intro h
    rw [appendN, ih (by omega), appendOne_canonical inp n h]

theorem renumberFrom_append_singleton :
    ∀ (l : List Message) (i : Nat) (x : Message),
    renumberFrom i (l ++ [x]) =
      renumberFrom i l ++ [{ x with id := i + l.length + 1 }] := by
  intro l
  induction l with
  | nil => intro i x; rfl
  | cons m l ih =>
    intro i x
    have harith : i + 1 + l.length + 1 = i + (l.length + 1) + 1 := by omega
    simp only [List.cons_append, renumberFrom, List.append_eq, ih,
      List.length_cons, harith]

theorem renumber_map_range (g : Nat → Message) : ∀ n : Nat,
    renumber ((List.range n).map g) =
      (List.range n).map (fun k => { g k with id := k + 1 }) := by
  intro n
  induction n with
  | zero => rfl
  | succ n ih =>
    rw [List.range_succ, List.map_append, List.map_append, List.map_cons,
      List.map_nil, List.map_cons, List.map_nil, renumber,
      renumberFrom_append_singleton, ← renumber, ih]
    simp

theorem canonicalLog_drop_one (inp : Nat → PostInput) (n : Nat) :
    (canonicalLog inp (n + 1)).drop 1 =
      (List.range n).map (fun k => mkStoredMessage (k + 2) (inp (k + 2))) := by
  simp only [canonicalLog, List.range_succ_eq_map, List.map_cons,
    List.drop_succ_cons, List.drop_zero, List.map_map]
  rfl

theorem appendN_101 (inp : Nat → PostInput) :
    appendN inp 101 =
      (List.range 100).map (fun k => mkStoredMessage (k + 1) (inp (k + 2))) := by
  have h1 : appendN inp 101 = appendOne (inp 101) (appendN inp 100) := rfl
  rw [h1, appendN_le_cap inp 100 (by omega), appendOne, appendMessage]
  rw [canonicalLog_map_id, foldl_max_range_succ]
  have hmsg : (⟨100 + 1, (inp 101).username, pyStrip (inp 101).text,
      (inp 101).now, (inp 101).ip, (inp 101).replyTo⟩ : Message) =
      mkStoredMessage (100 + 1) (inp (100 + 1)) := rfl
  rw [hmsg, ← canonicalLog_succ inp 100]
  rw [if_pos (by simp [canonicalLog])]
  rw [canonicalLog_drop_one, renumber_map_range]
  rfl

/-- C1: starting from an empty log, `n ≤ 100` appends (cap = 100 in the
code) yield ids `1..n` with no gaps; the 101st append drops the oldest
entry and renumbers the survivors contiguously from 1 in their preserved
relative order — the log is then exactly the inputs `2..101` carrying
ids `1..100` — and `since(0)`'s filter returns all 100 of them. -/
theorem message_log_monotonic_truncation (inp : Nat → PostInput) :
    (∀ n, n ≤ 100 → (appendN inp n).map (fun m => m.id) =
      (List.range n).map (fun k => k + 1))
    ∧ appendN inp 101 =
        (List.range 100).map (fun k => mkStoredMessage (k + 1) (inp (k + 2)))
    ∧ (appendN inp 101).map (fun m => m.id) =
        (List.range 100).map (fun k => k + 1)
    ∧ (appendN inp 101).length = 100
    ∧ (appendN inp 101).filter (fun m => (m.id : Int) > 0) = appendN inp 101 := by
  have h100 := appendN_101 inp
  refine ⟨?_, h100, ?_, ?_, ?_⟩
  · intro n hn
    rw [appendN_le_cap inp n hn, canonicalLog_map_id]
  · rw [h100]
    simp [List.map_map, mkStoredMessage]
  · rw [h100]
    simp
  · rw [h100, List.filter_eq_self]
    intro m hm
    obtain ⟨k, hk, rfl⟩ := List.mem_map.mp hm
    simp [mkStoredMessage]

/-- A concrete stream of inputs for the message-log witness. -/
def uniformInput : Nat → PostInput :=
  fun k => ⟨"alice", "hello", k, "127.0.0.1", none⟩

/-- Witness for C1 at `n = 3`: three appends into an empty log carry
ids `[1, 2, 3]`. -/
theorem message_log_monotonic_truncation_witness :
    (appendN uniformInput 3).map (fun m => m.id) = [1, 2, 3] := by
  have h := (message_log_monotonic_truncation uniformInput).1 3 (by omega)
  rw [h]
  decide

/-- The state reached by: register `alice` at t = 0, log in at t = 0 with
token `tok` (the session expires at t = 86400), heartbeat at t = 86400
(the session is still valid, so a presence entry for `tok` is written). -/
def expiredPresenceState : ServerState :=
  (handle_heartbeat (some "tok") 86400
    (handle_login "alice" "pw1234" "tok" 0
      (handle_register "alice" "pw1234" 0 emptyState).2).2).2

/-- C4 counterexample: a reachable state (one tick after the trace of
`expiredPresenceState`) in which the presence map still holds the entry
for `tok` — the sweep would not evict it, its last ping being 1 second
old — while `tok`'s session is expired, violating the invariant that
every presence entry names a currently valid session. -/
theorem presence_entry_outlives_session :
    Reachable (86401, expiredPresenceState)
    ∧ presenceOk 86401 expiredPresenceState = false
    ∧ presenceOk 86401 (cleanup_sweep 86401 expiredPresenceState) = false := by
  refine ⟨?_, by decide, by decide⟩
  unfold Reachable expiredPresenceState
  exact Relation.ReflTransGen.tail
    (Relation.ReflTransGen.tail
      (Relation.ReflTransGen.tail
        (Relation.ReflTransGen.tail Relation.ReflTransGen.refl
          (Step.register (Nat.le_refl 0)))
        (Step.login (Nat.le_refl 0)))
      (Step.heartbeat (Nat.zero_le 86400)))
    (Step.tick (by omega))

/-- C4 amended: a presence entry is written (by heartbeat or the online-list
refresh) only when the caller's session is valid at write time — otherwise
the presence map is left unchanged; the read endpoints (`handle_chat_messages`,
`handle_typing_get`) never remove presence entries; and the periodic sweep
removes exactly the entries whose last ping is more than 120 seconds old.
Between a session's expiry and the next sweep eviction or logout, a
presence entry may therefore refer to an expired session. -/
theorem presence_write_valid_reads_preserve (sid : String) (q : Option String)
    (now : Nat) (st : ServerState) :
    (((handle_heartbeat (some sid) now st).2).online_users = st.online_users
      ∨ ∃ sess,
          dictGet ((handle_heartbeat (some sid) now st).2).user_sessions sid =
            some sess ∧ now ≤ sess.expires)
    ∧ (((handle_online_users (some sid) now st).2).online_users =
          st.online_users
      ∨ ∃ sess,
          dictGet ((handle_online_users (some sid) now st).2).user_sessions
            sid = some sess ∧ now ≤ sess.expires)
    ∧ ((handle_chat_messages (some sid) q now st).2).online_users =
        st.online_users
    ∧ ((handle_typing_get (some sid) now st).2).online_users =
        st.online_users
    ∧ (cleanup_sweep now st).online_users =
        st.online_users.filter (fun p => ¬ now - p.2.last_ping > 120) := by
  refine ⟨?_, ?_, ?_, ?_, rfl⟩
  · cases hs : dictGet st.user_sessions sid with
    | none => left; simp [handle_heartbeat, is_valid_session, hs]
    | some sess =>
      by_cases hexp : now > sess.expires
      · left; simp [handle_heartbeat, is_valid_session, hs, hexp]
      · have hval := is_valid_session_of_live sid now st sess hs hexp
        have huser := get_username_of_live sid st sess hs
        right
        refine ⟨{ sess with last_activity := now }, ?_, by simp; omega⟩
        simp [handle_heartbeat, hval, huser, get_username_from_session, hs,
          dictGet_dictSet_self]
  · cases hs : dictGet st.user_sessions sid with
    | none => left; simp [handle_online_users, is_valid_session, hs]
    | some sess =>
      by_cases hexp : now > sess.expires
      · left; simp [handle_online_users, is_valid_session, hs, hexp]
      · have hval := is_valid_session_of_live sid now st sess hs hexp
        have huser := get_username_of_live sid st sess hs
        right
        refine ⟨sess, ?_, by omega⟩
        simp [handle_online_users, hval, huser, hs]
  · cases hs : dictGet st.user_sessions sid with
    | none => simp [handle_chat_messages, is_valid_session, hs]
    | some sess =>
      by_cases hexp : now > sess.expires
      · simp [handle_chat_messages, is_valid_session, hs, hexp]
      · have hval := is_valid_session_of_live sid now st sess hs hexp
        cases q with
        | none => simp [handle_chat_messages, hval]
        | some s => cases hp : pyIntParse s <;>
            simp [handle_chat_messages, hval, hp]
  · cases hs : dictGet st.user_sessions sid with
    | none => simp [handle_typing_get, is_valid_session, hs]
    | some sess =>
      by_cases hexp : now > sess.expires
      · simp [handle_typing_get, is_valid_session, hs, hexp]
      · have hval := is_valid_session_of_live sid now st sess hs hexp
        simp [handle_typing_get, hval]
